import Mathlib

/-!
Shallow embedding of the TWAMM calculator (Stylus contract) and proofs about it.

The sources are `src/stylus/src/twamm_math.rs` and `src/stylus/src/order_execution.rs`.
`U256` values are modelled as `Nat`; unchecked `U256` arithmetic follows the
release-mode semantics of the `ruint` type used by the contract: addition,
subtraction and multiplication wrap modulo `2 ^ 256`, while division by zero
panics (a panic aborts the call, modelled as an error value).  The `checked_*`
operations return `none` on overflow or a zero divisor, exactly as in Rust.
-/

namespace Twamm

/-- Width bound of the `U256` machine integers: values live in `[0, W)`. -/
def W : Nat := 2 ^ 256

/-- Wrapping (release-mode) `U256` addition. -/
def uadd (a b : Nat) : Nat := (a + b) % W

/-- Wrapping (release-mode) `U256` multiplication. -/
def umul (a b : Nat) : Nat := (a * b) % W

/-- Wrapping (release-mode) `U256` subtraction, for operands below `W`. -/
def usub (a b : Nat) : Nat := (a + W - b) % W

/-- Release-mode value of `10u128.pow p` (wraps modulo `2 ^ 128`). -/
def pow10u128 (p : Nat) : Nat := 10 ^ p % 2 ^ 128

/-- `U256::checked_add`. -/
def checked_add (a b : Nat) : Option Nat := if a + b < W then some (a + b) else none

/-- `U256::checked_sub`. -/
def checked_sub (a b : Nat) : Option Nat := if b ≤ a then some (a - b) else none

/-- `U256::checked_mul`. -/
def checked_mul (a b : Nat) : Option Nat := if a * b < W then some (a * b) else none

/-- `U256::checked_div` (fails only on a zero divisor). -/
def checked_div (a b : Nat) : Option Nat := if b = 0 then none else some (a / b)

/-- Loop of `TWAMMath::sqrt` (`twamm_math.rs` lines 44-52): while `y < z`, set
`z := y; y := (x / y + y) / 2`.  The division `x / y` panics when `y = 0`
(modelled by `none`); the addition wraps.  The extra `fuel` argument only
bounds the number of iterations so that the definition is structurally
recursive: `z` strictly decreases on every iteration, so `fuel ≥ z` is an
invariant and when `fuel` reaches `0` the guard `y < z = 0` is false anyway;
`sqrtGo_fuel_irrelevant` below shows the result does not depend on the fuel. -/
def sqrtGo (x : Nat) : Nat → Nat → Nat → Option Nat
  | 0, z, _ => some z
  | fuel + 1, z, y =>
    if y < z then
      if y = 0 then none
      else sqrtGo x fuel y (uadd (x / y) y / 2)
    else some z

/-- `TWAMMath::sqrt` (`twamm_math.rs` lines 35-53).  Note `x + 1` wraps for
`x = 2 ^ 256 - 1`, making the first loop iteration divide by zero. -/
def sqrt (x : Nat) : Option Nat :=
  if x = 0 then some 0
  else if x = 1 then some 1
  else sqrtGo x x x (uadd x 1 / 2)

/-- Tail of `calculate_unidirectional_state` (`twamm_math.rs` lines 259-265):
`new_reserve_out = k / new_reserve_in` (a zero `new_reserve_in` panics) and
the orientation of the returned pair. -/
def finishReserves (k new_reserve_in : Nat) (is_x_to_y : Bool) :
    Except String (Nat × Nat) :=
  if new_reserve_in = 0 then Except.error "panic: division by zero"
  else
    let new_reserve_out := k / new_reserve_in
    if is_x_to_y then Except.ok (new_reserve_in, new_reserve_out)
    else Except.ok (new_reserve_out, new_reserve_in)

/-- `TWAMMath::calculate_unidirectional_state` (`twamm_math.rs` lines 226-266). -/
def calculate_unidirectional_state (reserve_in reserve_out sell_rate time_blocks : Nat)
    (precision : Nat) (is_x_to_y : Bool) : Except String (Nat × Nat) :=
  let k := umul reserve_in reserve_out
  let one := pow10u128 precision
  let total_sell_amount := umul sell_rate time_blocks
  match sqrt k with
  | none => Except.error "panic: division by zero"
  | some sqrt_k =>
    if sqrt_k = 0 then Except.error "Invalid liquidity"
    else
      let decay_factor := umul total_sell_amount one / sqrt_k
      if decay_factor < one then
        if uadd reserve_in sqrt_k = 0 then Except.error "panic: division by zero"
        else
          finishReserves k
            (uadd reserve_in (umul total_sell_amount reserve_in / uadd reserve_in sqrt_k))
            is_x_to_y
      else
        finishReserves k (uadd reserve_in (umul total_sell_amount 8 / 10)) is_x_to_y

/-- `TWAMMath::calculate_bidirectional_state` (`twamm_math.rs` lines 269-313). -/
def calculate_bidirectional_state (initial_x initial_y sell_rate_x sell_rate_y
    time_blocks : Nat) (precision : Nat) : Except String (Nat × Nat) :=
  let one := pow10u128 precision
  let total_sell_x := umul sell_rate_x time_blocks
  let total_sell_y := umul sell_rate_y time_blocks
  if initial_x = 0 then Except.error "panic: division by zero"
  else
    let price_x_in_y := umul initial_y one / initial_x
    if one = 0 then Except.error "panic: division by zero"
    else
      let sell_x_value_in_y := umul total_sell_x price_x_in_y / one
      if total_sell_y < sell_x_value_in_y then
        if price_x_in_y = 0 then Except.error "panic: division by zero"
        else
          let net_sell_x := usub total_sell_x (umul total_sell_y one / price_x_in_y)
          if time_blocks = 0 then Except.error "panic: division by zero"
          else
            calculate_unidirectional_state initial_x initial_y
              (net_sell_x / time_blocks) time_blocks precision true
      else if sell_x_value_in_y < total_sell_y then
        let net_sell_y := total_sell_y - sell_x_value_in_y
        if time_blocks = 0 then Except.error "panic: division by zero"
        else
          calculate_unidirectional_state initial_y initial_x
            (net_sell_y / time_blocks) time_blocks precision false
      else
        Except.ok (initial_x, initial_y)

/-- `TWAMMath::calculate_virtual_amm_state` (`twamm_math.rs` lines 175-223). -/
def calculate_virtual_amm_state (initial_x initial_y sell_rate_x sell_rate_y
    time_blocks : Nat) (precision : Nat) : Except String (Nat × Nat) :=
  let _one := pow10u128 precision
  if sell_rate_x = 0 ∧ sell_rate_y = 0 then Except.ok (initial_x, initial_y)
  else if 0 < sell_rate_x ∧ sell_rate_y = 0 then
    calculate_unidirectional_state initial_x initial_y sell_rate_x time_blocks precision true
  else if 0 < sell_rate_y ∧ sell_rate_x = 0 then
    calculate_unidirectional_state initial_y initial_x sell_rate_y time_blocks precision false
  else
    calculate_bidirectional_state initial_x initial_y sell_rate_x sell_rate_y
      time_blocks precision

/-- `TWAMMath::calculate_price_impact` (`twamm_math.rs` lines 341-370). -/
def calculate_price_impact (trade_size reserve_in reserve_out : Nat)
    (precision : Nat) : Except String Nat :=
  if reserve_in = 0 ∨ reserve_out = 0 then Except.error "Invalid reserves"
  else
    let one := pow10u128 precision
    let k := umul reserve_in reserve_out
    let new_reserve_in := uadd reserve_in trade_size
    if new_reserve_in = 0 then Except.error "panic: division by zero"
    else
      let new_reserve_out := k / new_reserve_in
      let amount_out := usub reserve_out new_reserve_out
      let expected_out := umul trade_size reserve_out / reserve_in
      if expected_out ≤ amount_out then Except.ok 0
      else Except.ok (umul (umul (expected_out - amount_out) one) 100 / expected_out)

/-- `TWAMMath::calculate_execution_quality` (`twamm_math.rs` lines 470-496).
The local `amount_points` is `amount_ratio` in the source. -/
def calculate_execution_quality (expected_amount actual_amount price_impact_bps : Nat)
    (precision : Nat) : Nat :=
  let _one := pow10u128 precision
  let amount_points :=
    if 0 < expected_amount then umul actual_amount 50 / expected_amount else 50
  let impact_score :=
    if 500 < price_impact_bps then 50 - (price_impact_bps - 500) / 100 else 50
  uadd amount_points impact_score

/-! ## Order execution (`order_execution.rs`) -/

/-- `MathError`, as matched by `execute_virtual_orders` (`order_execution.rs`
lines 252-257); its definition lives in the math module missing from the
sources. -/
inductive MathError where
  | Overflow
  | DivisionByZero
  | InvalidInput
  | ComputationFailed
deriving DecidableEq

/-- `OrderType` (`order_execution.rs` lines 11-15). -/
inductive OrderType where
  | LongTerm
  | Instant
deriving DecidableEq

/-- `OrderDirection` (`order_execution.rs` lines 17-21). -/
inductive OrderDirection where
  | SellToken0
  | SellToken1
deriving DecidableEq

/-- `Order` (`order_execution.rs` lines 23-35); the `owner` address is an
opaque identity, modelled as a `Nat`. -/
structure Order where
  id : Nat
  owner : Nat
  order_type : OrderType
  direction : OrderDirection
  sell_rate : Nat
  remaining_amount : Nat
  start_block : Nat
  end_block : Nat
  last_virtual_order_block : Nat
  accumulated_out : Nat
deriving DecidableEq

/-- `VirtualOrderState` (`order_execution.rs` lines 55-61). -/
structure VirtualOrderState where
  last_virtual_order_block : Nat
  sell_rate_0_to_1 : Nat
  sell_rate_1_to_0 : Nat
  order_block_interval : Nat
deriving DecidableEq

/-- `VirtualOrderState::default` (`order_execution.rs` lines 63-72). -/
def VirtualOrderState.init : VirtualOrderState :=
  { last_virtual_order_block := 0
    sell_rate_0_to_1 := 0
    sell_rate_1_to_0 := 0
    order_block_interval := 100 }

/-- `OrderPool` (`order_execution.rs` lines 75-81). -/
structure OrderPool where
  orders : List Order
  next_order_id : Nat
  virtual_order_state : VirtualOrderState
  total_sell_rate_0 : Nat
  total_sell_rate_1 : Nat
deriving DecidableEq

/-- `OrderPool::default` (`order_execution.rs` lines 83-93): the empty pool. -/
def OrderPool.init : OrderPool :=
  { orders := []
    next_order_id := 1
    virtual_order_state := VirtualOrderState.init
    total_sell_rate_0 := 0
    total_sell_rate_1 := 0 }

/-- `VirtualExecutionResult` (`order_execution.rs` lines 96-106). -/
structure VirtualExecutionResult where
  blocks_executed : Nat
  amount_0_sold : Nat
  amount_1_sold : Nat
  amount_0_received : Nat
  amount_1_received : Nat
  new_reserve_0 : Nat
  new_reserve_1 : Nat
  gas_used_estimate : Nat
deriving DecidableEq

/-- Modelled from the spec: `TWAMMath::execute_virtual_orders_closed_form` is
called by `OrderPool::execute_virtual_orders` but its definition (together
with the rest of the `MathError`-based math module) is missing from the
sources.  Following section 4.3 step 4 of the specification, it invokes the
unidirectional/bidirectional engine routine (`calculate_virtual_amm_state`,
default precision 18) once for the whole window with the aggregated rates and
returns the new reserves together with the received amount per direction,
each received amount being the decrease of the opposite-token reserve. -/
def execute_virtual_orders_closed_form (sell_rate_0 sell_rate_1 blocks_elapsed
    reserve_0 reserve_1 : Nat) : Except MathError (Nat × Nat × Nat × Nat) :=
  match calculate_virtual_amm_state reserve_0 reserve_1 sell_rate_0 sell_rate_1
      blocks_elapsed 18 with
  | Except.error _ => Except.error MathError.ComputationFailed
  | Except.ok (new_reserve_0, new_reserve_1) =>
    Except.ok (new_reserve_0, new_reserve_1,
      reserve_0 - new_reserve_0, reserve_1 - new_reserve_1)

/-- Mutating calls return their `Result` together with the pool state after
the call; on an error the pool carries exactly the mutations the Rust code
performed before bailing out. -/
abbrev PoolResult (α : Type) := Except String α × OrderPool

/-- Tail of `create_long_term_order` (`order_execution.rs` lines 160-171): the
checked increment of `next_order_id`, returning the created id. -/
def finishCreate (p2 : OrderPool) : PoolResult Nat :=
  match checked_add p2.next_order_id 1 with
  | none => (Except.error "Order ID overflow", p2)
  | some nid => (Except.ok p2.next_order_id, { p2 with next_order_id := nid })

/-- `OrderPool::create_long_term_order` (`order_execution.rs` lines 110-172).
Note the source pushes the order before the checked aggregate-rate and id
updates, so those failures leave the pushed order behind. -/
def createLongTermOrder (p : OrderPool) (owner : Nat) (direction : OrderDirection)
    (sell_amount duration_blocks current_block : Nat) : PoolResult Nat :=
  if sell_amount = 0 ∨ duration_blocks = 0 then
    (Except.error "Invalid order parameters", p)
  else
    match checked_div sell_amount duration_blocks with
    | none => (Except.error "Division overflow", p)
    | some sell_rate =>
      match checked_add current_block duration_blocks with
      | none => (Except.error "Block overflow", p)
      | some endb =>
        let order : Order :=
          { id := p.next_order_id
            owner := owner
            order_type := OrderType.LongTerm
            direction := direction
            sell_rate := sell_rate
            remaining_amount := sell_amount
            start_block := current_block
            end_block := endb
            last_virtual_order_block := current_block
            accumulated_out := 0 }
        let p1 := { p with orders := p.orders ++ [order] }
        match direction with
        | OrderDirection.SellToken0 =>
          match checked_add p1.total_sell_rate_0 sell_rate with
          | none => (Except.error "Rate overflow", p1)
          | some t => finishCreate { p1 with total_sell_rate_0 := t }
        | OrderDirection.SellToken1 =>
          match checked_add p1.total_sell_rate_1 sell_rate with
          | none => (Except.error "Rate overflow", p1)
          | some t => finishCreate { p1 with total_sell_rate_1 := t }

/-- Removal of the first order with a given id, returning it and the
remaining list (`orders.iter().position(...)` followed by
`orders.remove(index)` in the source). -/
def removeFirstById : List Order → Nat → Option (Order × List Order)
  | [], _ => none
  | o :: rest, oid =>
    if o.id = oid then some (o, rest)
    else
      match removeFirstById rest oid with
      | none => none
      | some (f, rest1) => some (f, o :: rest1)

/-- `OrderPool::cancel_order` (`order_execution.rs` lines 175-210). -/
def cancelOrder (p : OrderPool) (order_id caller : Nat) : PoolResult Order :=
  match removeFirstById p.orders order_id with
  | none => (Except.error "Order not found", p)
  | some (o, rest) =>
    if o.owner ≠ caller then (Except.error "Not order owner", p)
    else
      match o.direction with
      | OrderDirection.SellToken0 =>
        match checked_sub p.total_sell_rate_0 o.sell_rate with
        | none => (Except.error "Rate underflow", p)
        | some t => (Except.ok o, { p with orders := rest, total_sell_rate_0 := t })
      | OrderDirection.SellToken1 =>
        match checked_sub p.total_sell_rate_1 o.sell_rate with
        | none => (Except.error "Rate underflow", p)
        | some t => (Except.ok o, { p with orders := rest, total_sell_rate_1 := t })

/-- Loop of `OrderPool::get_active_sell_rates` (`order_execution.rs` lines
297-336). -/
def getActiveSellRatesAux (start_block end_block : Nat) :
    List Order → Nat → Nat → Except String (Nat × Nat)
  | [], t0, t1 => Except.ok (t0, t1)
  | o :: rest, t0, t1 =>
    if o.order_type ≠ OrderType.LongTerm then
      getActiveSellRatesAux start_block end_block rest t0 t1
    else if o.end_block ≤ start_block ∨ end_block ≤ o.start_block then
      getActiveSellRatesAux start_block end_block rest t0 t1
    else
      let effective_start := max o.start_block start_block
      let effective_end := min o.end_block end_block
      if effective_start < effective_end then
        match o.direction with
        | OrderDirection.SellToken0 =>
          match checked_add t0 o.sell_rate with
          | none => Except.error "Rate calculation overflow"
          | some t0n => getActiveSellRatesAux start_block end_block rest t0n t1
        | OrderDirection.SellToken1 =>
          match checked_add t1 o.sell_rate with
          | none => Except.error "Rate calculation overflow"
          | some t1n => getActiveSellRatesAux start_block end_block rest t0 t1n
      else
        getActiveSellRatesAux start_block end_block rest t0 t1

/-- `OrderPool::get_active_sell_rates`. -/
def getActiveSellRates (p : OrderPool) (start_block end_block : Nat) :
    Except String (Nat × Nat) :=
  getActiveSellRatesAux start_block end_block p.orders 0 0

/-- Per-call environment of `update_orders_after_execution`: its arguments and
the aggregate-rate fields read (but not written) during the update pass. -/
structure UpdateEnv where
  blocks_elapsed : Nat
  amount_0_received : Nat
  amount_1_received : Nat
  current_block : Nat
  total_sell_rate_0 : Nat
  total_sell_rate_1 : Nat
deriving DecidableEq

/-- Proportional distribution of the received amount to one order
(`order_execution.rs` lines 370-396). -/
def receivedAmount (env : UpdateEnv) (o : Order) : Except String Nat :=
  match o.direction with
  | OrderDirection.SellToken0 =>
    if 0 < env.total_sell_rate_0 then
      match checked_mul env.amount_1_received o.sell_rate with
      | none => Except.error "Distribution calculation overflow"
      | some m =>
        match checked_div m env.total_sell_rate_0 with
        | none => Except.error "Distribution division error"
        | some v => Except.ok v
    else Except.ok 0
  | OrderDirection.SellToken1 =>
    if 0 < env.total_sell_rate_1 then
      match checked_mul env.amount_0_received o.sell_rate with
      | none => Except.error "Distribution calculation overflow"
      | some m =>
        match checked_div m env.total_sell_rate_1 with
        | none => Except.error "Distribution division error"
        | some v => Except.ok v
    else Except.ok 0

/-- One iteration of the update loop of `update_orders_after_execution`
(`order_execution.rs` lines 348-409): the updated order paired with its
removal flag, plus the state the order is left in (partial on an error). -/
def processOrder (env : UpdateEnv) (o : Order) :
    Except String (Order × Bool) × Order :=
  if o.order_type ≠ OrderType.LongTerm then (Except.ok (o, false), o)
  else if o.end_block ≤ env.current_block then (Except.ok (o, true), o)
  else
    match checked_mul o.sell_rate env.blocks_elapsed with
    | none => (Except.error "Amount calculation overflow", o)
    | some amount_sold =>
      let o1 := { o with
        remaining_amount := o.remaining_amount - min amount_sold o.remaining_amount }
      match receivedAmount env o with
      | Except.error e => (Except.error e, o1)
      | Except.ok received =>
        match checked_add o.accumulated_out received with
        | none => (Except.error "Accumulated amount overflow", o1)
        | some acc =>
          let o2 := { o1 with
            accumulated_out := acc
            last_virtual_order_block := env.current_block }
          (Except.ok (o2, o2.remaining_amount = 0), o2)

/-- The whole update pass over the order list; the second component is the
list the pool holds afterwards (on an error: updated prefix, partially
updated failing order, untouched suffix). -/
def updateOrdersAux (env : UpdateEnv) :
    List Order → Except String (List (Order × Bool)) × List Order
  | [] => (Except.ok [], [])
  | o :: rest =>
    match processOrder env o with
    | (Except.error e, o1) => (Except.error e, o1 :: rest)
    | (Except.ok ob, _) =>
      match updateOrdersAux env rest with
      | (Except.error e, rest1) => (Except.error e, ob.1 :: rest1)
      | (Except.ok obs, rest1) => (Except.ok (ob :: obs), ob.1 :: rest1)

/-- Aggregate-rate bookkeeping of the removal loop (`order_execution.rs`
lines 412-432): subtract the rate of every flagged order, saturating at zero
(`checked_sub(..).unwrap_or(ZERO)`). -/
def subtractRemovedRates : List (Order × Bool) → Nat → Nat → Nat × Nat
  | [], t0, t1 => (t0, t1)
  | (o, flag) :: rest, t0, t1 =>
    if flag then
      match o.direction with
      | OrderDirection.SellToken0 => subtractRemovedRates rest (t0 - o.sell_rate) t1
      | OrderDirection.SellToken1 => subtractRemovedRates rest t0 (t1 - o.sell_rate)
    else subtractRemovedRates rest t0 t1

/-- `OrderPool::update_orders_after_execution` (`order_execution.rs` lines
339-435).  Flagged orders are removed by descending index, which keeps the
unflagged orders in their original relative position; the removal loop walks
`orders_to_remove` in reverse. -/
def updateOrdersAfterExecution (p : OrderPool) (blocks_elapsed amount_0_received
    amount_1_received current_block : Nat) : PoolResult Unit :=
  let env : UpdateEnv :=
    { blocks_elapsed := blocks_elapsed
      amount_0_received := amount_0_received
      amount_1_received := amount_1_received
      current_block := current_block
      total_sell_rate_0 := p.total_sell_rate_0
      total_sell_rate_1 := p.total_sell_rate_1 }
  match updateOrdersAux env p.orders with
  | (Except.error e, after) => (Except.error e, { p with orders := after })
  | (Except.ok obs, _) =>
    let kept := (obs.filter (fun ob => !ob.2)).map (·.1)
    let rates := subtractRemovedRates obs.reverse p.total_sell_rate_0 p.total_sell_rate_1
    (Except.ok (), { p with
      orders := kept
      total_sell_rate_0 := rates.1
      total_sell_rate_1 := rates.2 })

/-- `OrderPool::execute_virtual_orders` (`order_execution.rs` lines 213-294). -/
def executeVirtualOrders (p : OrderPool) (current_block current_reserve_0
    current_reserve_1 : Nat) : PoolResult VirtualExecutionResult :=
  let last_block := p.virtual_order_state.last_virtual_order_block
  if current_block ≤ last_block then
    (Except.ok
      { blocks_executed := 0
        amount_0_sold := 0
        amount_1_sold := 0
        amount_0_received := 0
        amount_1_received := 0
        new_reserve_0 := current_reserve_0
        new_reserve_1 := current_reserve_1
        gas_used_estimate := 0 }, p)
  else
    match checked_sub current_block last_block with
    | none => (Except.error "Block calculation error", p)
    | some blocks_elapsed =>
      match getActiveSellRates p last_block current_block with
      | Except.error e => (Except.error e, p)
      | Except.ok (active_sell_rate_0, active_sell_rate_1) =>
        match execute_virtual_orders_closed_form active_sell_rate_0 active_sell_rate_1
            blocks_elapsed current_reserve_0 current_reserve_1 with
        | Except.error MathError.Overflow =>
          (Except.error "Math overflow in virtual execution", p)
        | Except.error MathError.DivisionByZero =>
          (Except.error "Division by zero in virtual execution", p)
        | Except.error MathError.InvalidInput =>
          (Except.error "Invalid input for virtual execution", p)
        | Except.error MathError.ComputationFailed =>
          (Except.error "Virtual execution computation failed", p)
        | Except.ok (new_reserve_0, new_reserve_1, amount_0_received, amount_1_received) =>
          match updateOrdersAfterExecution p blocks_elapsed amount_0_received
              amount_1_received current_block with
          | (Except.error e, p1) => (Except.error e, p1)
          | (Except.ok _, p1) =>
            let p2 := { p1 with virtual_order_state :=
              { p1.virtual_order_state with last_virtual_order_block := current_block } }
            match checked_mul active_sell_rate_0 blocks_elapsed with
            | none => (Except.error "Calculation overflow", p2)
            | some amount_0_sold =>
              match checked_mul active_sell_rate_1 blocks_elapsed with
              | none => (Except.error "Calculation overflow", p2)
              | some amount_1_sold =>
                match checked_mul blocks_elapsed 21000 with
                | none => (Except.error "Gas calculation overflow", p2)
                | some gas_estimate =>
                  (Except.ok
                    { blocks_executed := blocks_elapsed
                      amount_0_sold := amount_0_sold
                      amount_1_sold := amount_1_sold
                      amount_0_received := amount_0_received
                      amount_1_received := amount_1_received
                      new_reserve_0 := new_reserve_0
                      new_reserve_1 := new_reserve_1
                      gas_used_estimate := gas_estimate }, p2)

/-! ## Derived notions used by the stated properties -/

/-- Sum of the sell rates of the stored orders with the given direction. -/
def sumRates (d : OrderDirection) : List Order → Nat
  | [] => 0
  | o :: rest => (if o.direction = d then o.sell_rate else 0) + sumRates d rest

/-- Sum of the accumulated output of the stored orders with the given
direction. -/
def sumAccum (d : OrderDirection) : List Order → Nat
  | [] => 0
  | o :: rest => (if o.direction = d then o.accumulated_out else 0) + sumAccum d rest

/-- Number of the stored orders with the given direction. -/
def countDir (d : OrderDirection) : List Order → Nat
  | [] => 0
  | o :: rest => (if o.direction = d then 1 else 0) + countDir d rest

/-- Aggregate-rate bookkeeping invariant: each per-direction total equals the
sum of the stored rates in that direction. -/
def rateConsistent (p : OrderPool) : Prop :=
  p.total_sell_rate_0 = sumRates OrderDirection.SellToken0 p.orders ∧
  p.total_sell_rate_1 = sumRates OrderDirection.SellToken1 p.orders

/-- Pool states reachable from the empty pool by successful calls of the
three mutating operations. -/
inductive Reachable : OrderPool → Prop where
  | init : Reachable OrderPool.init
  | create (p p1 : OrderPool) (owner : Nat) (direction : OrderDirection)
      (sell_amount duration_blocks current_block i : Nat) :
      Reachable p →
      createLongTermOrder p owner direction sell_amount duration_blocks current_block =
        (Except.ok i, p1) →
      Reachable p1
  | cancel (p p1 : OrderPool) (order_id caller : Nat) (o : Order) :
      Reachable p →
      cancelOrder p order_id caller = (Except.ok o, p1) →
      Reachable p1
  | execute (p p1 : OrderPool) (current_block r0 r1 : Nat)
      (res : VirtualExecutionResult) :
      Reachable p →
      executeVirtualOrders p current_block r0 r1 = (Except.ok res, p1) →
      Reachable p1

/-! ## Concrete states used as witnesses and counterexamples -/

/-- Pool after one successful creation of an order of rate `W - 1`. -/
def pOverflowA : OrderPool :=
  (createLongTermOrder OrderPool.init 7 OrderDirection.SellToken0 (W - 1) 1 0).2

/-- Pool after a second, failing creation of an order of rate `W - 1`: the
aggregate-rate update overflows after the order was already inserted. -/
def pOverflowB : OrderPool :=
  (createLongTermOrder pOverflowA 7 OrderDirection.SellToken0 (W - 1) 1 0).2

/-- A long-term order selling token 0 that is expired at block 100. -/
def oExpired : Order :=
  { id := 1
    owner := 7
    order_type := OrderType.LongTerm
    direction := OrderDirection.SellToken0
    sell_rate := 1000
    remaining_amount := 100000
    start_block := 0
    end_block := 100
    last_virtual_order_block := 0
    accumulated_out := 0 }

/-- Pool holding only `oExpired`, with consistent aggregate rates. -/
def pExpired : OrderPool :=
  { orders := [oExpired]
    next_order_id := 2
    virtual_order_state := VirtualOrderState.init
    total_sell_rate_0 := 1000
    total_sell_rate_1 := 0 }

/-- A long-term order selling token 0 that is still running at block 100. -/
def oRunning : Order :=
  { id := 1
    owner := 7
    order_type := OrderType.LongTerm
    direction := OrderDirection.SellToken0
    sell_rate := 1000
    remaining_amount := 200000
    start_block := 0
    end_block := 200
    last_virtual_order_block := 0
    accumulated_out := 0 }

/-- Pool holding only `oRunning`, with consistent aggregate rates. -/
def pRunning : OrderPool :=
  { orders := [oRunning]
    next_order_id := 2
    virtual_order_state := VirtualOrderState.init
    total_sell_rate_0 := 1000
    total_sell_rate_1 := 0 }

/-- Result of the catch-up window `[0, 100)` against reserves
1000000/1000000 with aggregate rate 1000 selling token 0. -/
def resWindow : VirtualExecutionResult :=
  { blocks_executed := 100
    amount_0_sold := 100000
    amount_1_sold := 0
    amount_0_received := 0
    amount_1_received := 47620
    new_reserve_0 := 1050000
    new_reserve_1 := 952380
    gas_used_estimate := 2100000 }

/-- Pool state after executing the catch-up on `pExpired`. -/
def pExpiredAfter : OrderPool := (executeVirtualOrders pExpired 100 1000000 1000000).2

/-- Update environment of that catch-up call. -/
def envWindow : UpdateEnv :=
  { blocks_elapsed := 100
    amount_0_received := 0
    amount_1_received := 47620
    current_block := 100
    total_sell_rate_0 := 1000
    total_sell_rate_1 := 0 }

/-- The share of the received amount one order gets on a successful update
(`order_execution.rs` lines 370-396, success case). -/
def orderShare (env : UpdateEnv) (o : Order) : Nat :=
  match o.direction with
  | OrderDirection.SellToken0 =>
    if 0 < env.total_sell_rate_0 then
      env.amount_1_received * o.sell_rate / env.total_sell_rate_0
    else 0
  | OrderDirection.SellToken1 =>
    if 0 < env.total_sell_rate_1 then
      env.amount_0_received * o.sell_rate / env.total_sell_rate_1
    else 0

/-- The state of an order after a successful update pass in which it is
neither expired nor completed. -/
def updF (env : UpdateEnv) (o : Order) : Order :=
  { o with
    remaining_amount := o.remaining_amount - o.sell_rate * env.blocks_elapsed
    accumulated_out := o.accumulated_out + orderShare env o
    last_virtual_order_block := env.current_block }

/-- Sum of the shares of the stored orders with the given direction. -/
def sumShares (env : UpdateEnv) (d : OrderDirection) : List Order → Nat
  | [] => 0
  | o :: rest => (if o.direction = d then orderShare env o else 0) + sumShares env d rest

/-- Pool state after the catch-up on `pRunning`. -/
def pRunningAfter : OrderPool := (executeVirtualOrders pRunning 100 1000000 1000000).2

/-! ## Theorems -/

/-- The fuel of `sqrtGo` is irrelevant as long as it dominates `z`: the
Newton loop genuinely terminates because its candidate strictly decreases. -/
theorem sqrtGo_fuel_irrelevant (x : Nat) :
    ∀ f1 f2 z y, z ≤ f1 → z ≤ f2 → sqrtGo x f1 z y = sqrtGo x f2 z y := by
  intro f1
  induction f1 with
  | zero =>
    intro f2 z y h1 _
    interval_cases z
    match f2 with
    | 0 => rfl
    | f + 1 => simp [sqrtGo]
  | succ f ih =>
    intro f2 z y h1 h2
    match f2 with
    | 0 =>
      interval_cases z
      simp [sqrtGo]
    | g + 1 =>
      simp only [sqrtGo]
      by_cases hyz : y < z
      · simp only [if_pos hyz]
        by_cases hy0 : y = 0
        · simp [hy0]
        · simp only [if_neg hy0]
          exact ih g y _ (by omega) (by omega)
      · simp [if_neg hyz]

/-- Helper: a successful `finishReserves k a b` returns a pair whose product
is at most `k`, because one component is exactly `k` divided by the other. -/
theorem finishReserves_mul_le (k a : Nat) (b : Bool) (ni no : Nat)
    (h : finishReserves k a b = Except.ok (ni, no)) : ni * no ≤ k := by
  unfold finishReserves at h
  by_cases h0 : a = 0
  · rw [if_pos h0] at h
    exact absurd h (by simp)
  · rw [if_neg h0] at h
    cases b
    · simp only [Bool.false_eq_true, if_false, Except.ok.injEq, Prod.mk.injEq] at h
      obtain ⟨h1, h2⟩ := h
      subst h1
      subst h2
      exact Nat.div_mul_le_self k a
    · simp only [if_true, Except.ok.injEq, Prod.mk.injEq] at h
      obtain ⟨h1, h2⟩ := h
      subst h1
      subst h2
      rw [Nat.mul_comm]
      exact Nat.div_mul_le_self k a

/-- C1: for every successful call of
`calculate_unidirectional_state(reserveIn, reserveOut, sellRate, timeBlocks,
precision, isXtoY)` with positive reserves, the product of the returned pair
of reserves never exceeds the product of the input reserves: the constant
product never increases across a trade. -/
theorem constant_product_never_increases
    (reserve_in reserve_out sell_rate time_blocks precision : Nat) (is_x_to_y : Bool)
    (new_in new_out : Nat)
    (h : calculate_unidirectional_state reserve_in reserve_out sell_rate time_blocks
        precision is_x_to_y = Except.ok (new_in, new_out))
    (hin : 0 < reserve_in) (hout : 0 < reserve_out) :
    new_in * new_out ≤ reserve_in * reserve_out := by
  have hk : umul reserve_in reserve_out ≤ reserve_in * reserve_out := Nat.mod_le _ _
  simp only [calculate_unidirectional_state] at h
  split at h
  · exact absurd h (by simp)
  · split at h
    · exact absurd h (by simp)
    · split at h
      · split at h
        · exact absurd h (by simp)
        · exact le_trans (finishReserves_mul_le _ _ _ _ _ h) hk
      · exact le_trans (finishReserves_mul_le _ _ _ _ _ h) hk

/-- Witness for C1 at a concrete successful trade. -/
theorem constant_product_never_increases_witness :
    calculate_unidirectional_state 1000000 1000000 1000 100 18 true =
      Except.ok (1050000, 952380) ∧
    1050000 * 952380 ≤ 1000000 * 1000000 :=
  ⟨rfl, constant_product_never_increases 1000000 1000000 1000 100 18 true
    1050000 952380 rfl (by decide) (by decide)⟩

/-- Helper: the early-return branch of `execute_virtual_orders`
(`order_execution.rs` lines 221-233). -/
theorem executeVirtualOrders_stale (p : OrderPool)
    (current_block r0 r1 : Nat)
    (h : current_block ≤ p.virtual_order_state.last_virtual_order_block) :
    executeVirtualOrders p current_block r0 r1 =
      (Except.ok
        { blocks_executed := 0
          amount_0_sold := 0
          amount_1_sold := 0
          amount_0_received := 0
          amount_1_received := 0
          new_reserve_0 := r0
          new_reserve_1 := r1
          gas_used_estimate := 0 }, p) := by
  unfold executeVirtualOrders
  rw [if_pos h]

/-- C5: a call of `execute_virtual_orders` with `currentBlock` at most the
last catch-up block returns the zero-delta result with unchanged reserves and
leaves the pool state entirely unchanged. -/
theorem execute_virtual_orders_stale_noop (p : OrderPool)
    (current_block r0 r1 : Nat)
    (h : current_block ≤ p.virtual_order_state.last_virtual_order_block) :
    executeVirtualOrders p current_block r0 r1 =
      (Except.ok
        { blocks_executed := 0
          amount_0_sold := 0
          amount_1_sold := 0
          amount_0_received := 0
          amount_1_received := 0
          new_reserve_0 := r0
          new_reserve_1 := r1
          gas_used_estimate := 0 }, p) :=
  executeVirtualOrders_stale p current_block r0 r1 h

/-- Witness for C5 on the empty pool. -/
theorem execute_virtual_orders_stale_noop_witness :
    executeVirtualOrders OrderPool.init 0 5 7 =
      (Except.ok
        { blocks_executed := 0
          amount_0_sold := 0
          amount_1_sold := 0
          amount_0_received := 0
          amount_1_received := 0
          new_reserve_0 := 5
          new_reserve_1 := 7
          gas_used_estimate := 0 }, OrderPool.init) :=
  execute_virtual_orders_stale_noop OrderPool.init 0 5 7 (by decide)

/-- C6: with both sell rates zero, `calculate_virtual_amm_state` succeeds and
returns the reserves unchanged, for any positive reserves, any time horizon
and any precision. -/
theorem virtual_amm_state_noop_law (x y time_blocks precision : Nat)
    (hx : 0 < x) (hy : 0 < y) :
    calculate_virtual_amm_state x y 0 0 time_blocks precision = Except.ok (x, y) := rfl

/-- Witness for C6 at concrete reserves. -/
theorem virtual_amm_state_noop_law_witness :
    0 < 5 ∧ 0 < 7 ∧
    calculate_virtual_amm_state 5 7 0 0 3 18 = Except.ok (5, 7) :=
  ⟨by decide, by decide, virtual_amm_state_noop_law 5 7 3 18 (by decide) (by decide)⟩

/-- C8 (failing input): at `expected = 1`, `actual = 10`, `impact = 0` the
execution-quality score is `550`, far above the `[0, 100]` range the claim
(and the code comments) promise, because the amount-ratio component is not
capped at 50 points. -/
theorem execution_quality_exceeds_100 :
    calculate_execution_quality 1 10 0 18 = 550 ∧
    100 < calculate_execution_quality 1 10 0 18 :=
  ⟨rfl, by decide⟩

/-- C9 (counterexample): at the input `2 ^ 256 - 1 = U256::MAX`, `sqrt` does
not return a value: `x + 1` wraps to zero, so the first Newton step divides
by zero and the call panics instead of returning the integer square root. -/
theorem sqrt_umax_no_result : sqrt (2 ^ 256 - 1) = none := by decide

/-- C2 (failing input): creating an order whose rate overflows the aggregate
rate returns an error but leaves the pushed order behind: the second creation
below fails with `Rate overflow`, yet the pool afterwards holds two orders
while the aggregate rate field is unchanged, a visible partial mutation. -/
theorem create_error_leaves_partial_mutation :
    (createLongTermOrder OrderPool.init 7 OrderDirection.SellToken0 (W - 1) 1 0).1 =
      Except.ok 1 ∧
    (createLongTermOrder pOverflowA 7 OrderDirection.SellToken0 (W - 1) 1 0).1 =
      Except.error "Rate overflow" ∧
    pOverflowB.orders.length = 2 ∧
    pOverflowA.orders.length = 1 ∧
    pOverflowB.total_sell_rate_0 = pOverflowA.total_sell_rate_0 :=
  ⟨rfl, rfl, rfl, rfl, rfl⟩

/-- C4 (counterexample): the state reached from the empty pool by one
successful and one failing `create_long_term_order` call violates the
claimed bookkeeping equality: the pool holds two orders of rate
`2 ^ 256 - 1` each, while the aggregate rate is `2 ^ 256 - 1`. -/
theorem rate_bookkeeping_counterexample :
    (createLongTermOrder OrderPool.init 7 OrderDirection.SellToken0 (W - 1) 1 0).1 =
      Except.ok 1 ∧
    pOverflowB.total_sell_rate_0 ≠ sumRates OrderDirection.SellToken0 pOverflowB.orders :=
  ⟨rfl, by decide⟩



theorem le_mul_succ (q y : Nat) (h1 : 1 ≤ y) : q + 1 + y ≤ (q + 1) * y + 1 := by
  have hy : q * 1 ≤ q * y := Nat.mul_le_mul_left q h1
  rw [Nat.mul_one] at hy
  rw [Nat.succ_mul]
  omega

theorem div_add_le_succ (x y : Nat) (h1 : 1 ≤ y) (h2 : y ≤ x) : x / y + y ≤ x + 1 := by
  rcases Nat.eq_zero_or_pos (x / y) with h0 | hpos
  · omega
  · obtain ⟨q, hq⟩ : ∃ q, x / y = q + 1 := ⟨x / y - 1, by omega⟩
    have hstep : q + 1 + y ≤ (q + 1) * y + 1 := le_mul_succ q y h1
    have hqle : (q + 1) * y ≤ x := by
      rw [← hq]
      exact Nat.div_mul_le_self x y
    omega

theorem iter_unfold (x y : Nat) : Nat.sqrt.iter x y =
    if (y + x / y) / 2 < y then Nat.sqrt.iter x ((y + x / y) / 2) else y := by
  conv_lhs => rw [Nat.sqrt.iter]
  rw [dite_eq_ite]

theorem sqrtGo_eq_iter (x : Nat) (hx2 : 2 ≤ x) (hxW : x + 1 < W) :
    ∀ fuel z y, z ≤ fuel → 1 ≤ y → y ≤ x →
    sqrtGo x fuel z y = some (if y < z then Nat.sqrt.iter x y else z) := by
  intro fuel
  induction fuel with
  | zero =>
    intro z y hz h1 h2
    interval_cases z
    simp [sqrtGo]
  | succ f ih =>
    intro z y hz h1 h2
    by_cases hyz : y < z
    · have hy0 : ¬ y = 0 := by omega
      have hle : x / y + y ≤ x + 1 := div_add_le_succ x y h1 h2
      have hadd : uadd (x / y) y = x / y + y := by
        unfold uadd
        exact Nat.mod_eq_of_lt (by omega)
      have h1n : 1 ≤ (x / y + y) / 2 := by
        have hxy : 2 ≤ x / y + y := by
          rcases Nat.lt_or_ge y 2 with hy | hy
          · have hy1 : y = 1 := by omega
            have hx1 : x / y = x := by rw [hy1, Nat.div_one]
            omega
          · exact le_trans hy (Nat.le_add_left y (x / y))
        omega
      have h2n : (x / y + y) / 2 ≤ x := by
        have h5 : (x / y + y) / 2 ≤ (x + 1) / 2 := Nat.div_le_div_right hle
        omega
      rw [show sqrtGo x (f + 1) z y = sqrtGo x f y (uadd (x / y) y / 2) by
        simp [sqrtGo, hyz, hy0]]
      rw [hadd, ih y ((x / y + y) / 2) (by omega) h1n h2n, if_pos hyz]
      congr 1
      rw [iter_unfold x y, Nat.add_comm y (x / y)]
    · rw [if_neg hyz]
      simp [sqrtGo, hyz]

/-- C9 (amended): for every input below `2 ^ 256 - 1`, `sqrt` terminates and
returns the integer square root, the unique `r` with
`r * r ≤ x < (r + 1) * (r + 1)`; in particular `sqrt 0 = some 0`. -/
theorem sqrt_newton_correct (x : Nat) (hx : x < W - 1) :
    ∃ r, sqrt x = some r ∧ r * r ≤ x ∧ x < (r + 1) * (r + 1) ∧ (x = 0 → r = 0) := by
  rcases Nat.lt_or_ge x 2 with hx2 | hx2
  · interval_cases x
    · exact ⟨0, rfl, by omega, by omega, fun _ => rfl⟩
    · exact ⟨1, rfl, by omega, by omega, by omega⟩
  · have hxW : x + 1 < W := by
      have : (2 : Nat) ≤ W := by unfold W; norm_num
      omega
    have hne0 : ¬ x = 0 := by omega
    have hne1 : ¬ x = 1 := by omega
    have hadd1 : uadd x 1 = x + 1 := Nat.mod_eq_of_lt hxW
    have hy0le : (x + 1) / 2 ≤ x := by omega
    have hy0pos : 1 ≤ (x + 1) / 2 := by omega
    have hchar := sqrtGo_eq_iter x hx2 hxW x x ((x + 1) / 2) (le_refl x) hy0pos hy0le
    have hy0lt : (x + 1) / 2 < x := by omega
    refine ⟨Nat.sqrt.iter x ((x + 1) / 2), ?_, ?_, ?_, by omega⟩
    · unfold sqrt
      rw [if_neg hne0, if_neg hne1, hadd1, hchar, if_pos hy0lt]
    · exact Nat.sqrt.iter_sq_le x ((x + 1) / 2)
    · apply Nat.sqrt.lt_iter_succ_sq
      have h2g : x ≤ 2 * ((x + 1) / 2) := by omega
      have hsq : 0 ≤ ((x + 1) / 2) * ((x + 1) / 2) := Nat.zero_le _
      calc x < 2 * ((x + 1) / 2) + 1 := by omega
        _ ≤ ((x + 1) / 2) * ((x + 1) / 2) + (2 * ((x + 1) / 2) + 1) := by omega
        _ = ((x + 1) / 2 + 1) * ((x + 1) / 2 + 1) := by ring


/-- Witness for C9 at a concrete input. -/
theorem sqrt_newton_correct_witness :
    1000000000000 < W - 1 ∧
    ∃ r, sqrt 1000000000000 = some r ∧ r * r ≤ 1000000000000 ∧
      1000000000000 < (r + 1) * (r + 1) ∧ (1000000000000 = 0 → r = 0) :=
  ⟨by decide, sqrt_newton_correct 1000000000000 (by decide)⟩

theorem checked_add_ok {a b v : Nat} (h : checked_add a b = some v) : v = a + b := by
  unfold checked_add at h
  split at h
  · exact ((Option.some.injEq _ _).mp h).symm
  · exact absurd h (by simp)

theorem checked_sub_ok {a b v : Nat} (h : checked_sub a b = some v) :
    v = a - b ∧ b ≤ a := by
  unfold checked_sub at h
  split at h
  · exact ⟨((Option.some.injEq _ _).mp h).symm, by assumption⟩
  · exact absurd h (by simp)

theorem checked_mul_ok {a b v : Nat} (h : checked_mul a b = some v) : v = a * b := by
  unfold checked_mul at h
  split at h
  · exact ((Option.some.injEq _ _).mp h).symm
  · exact absurd h (by simp)

theorem checked_div_ok {a b v : Nat} (h : checked_div a b = some v) :
    v = a / b ∧ b ≠ 0 := by
  unfold checked_div at h
  split at h
  · exact absurd h (by simp)
  · exact ⟨((Option.some.injEq _ _).mp h).symm, by assumption⟩

theorem sumRates_append (d : OrderDirection) (l1 l2 : List Order) :
    sumRates d (l1 ++ l2) = sumRates d l1 + sumRates d l2 := by
  induction l1 with
  | nil => simp [sumRates]
  | cons o rest ih =>
    rw [List.cons_append]
    show (if o.direction = d then o.sell_rate else 0) + sumRates d (rest ++ l2) = _
    rw [ih]
    show _ = (if o.direction = d then o.sell_rate else 0) + sumRates d rest + sumRates d l2
    omega

theorem finishCreate_ok {p2 p1 : OrderPool} {i : Nat}
    (h : finishCreate p2 = (Except.ok i, p1)) :
    p1.orders = p2.orders ∧ p1.total_sell_rate_0 = p2.total_sell_rate_0 ∧
    p1.total_sell_rate_1 = p2.total_sell_rate_1 := by
  unfold finishCreate at h
  split at h
  · exact absurd h (by simp)
  · obtain ⟨-, hp⟩ := Prod.mk.injEq .. ▸ h
    subst hp
    exact ⟨rfl, rfl, rfl⟩

theorem sumRates_singleton (d : OrderDirection) (o : Order) :
    sumRates d [o] = if o.direction = d then o.sell_rate else 0 := by
  show (if o.direction = d then o.sell_rate else 0) + 0 = _
  omega

theorem createLongTermOrder_preserves (p p1 : OrderPool) (owner : Nat)
    (direction : OrderDirection) (sell_amount duration_blocks current_block i : Nat)
    (h : createLongTermOrder p owner direction sell_amount duration_blocks current_block =
      (Except.ok i, p1))
    (hc : rateConsistent p) : rateConsistent p1 := by
  obtain ⟨hc0, hc1⟩ := hc
  simp only [createLongTermOrder] at h
  split at h
  · exact absurd h (by simp)
  split at h
  · exact absurd h (by simp)
  rename_i sell_rate hdiv
  split at h
  · exact absurd h (by simp)
  rename_i endb hadd
  split at h <;> [skip; skip] <;> split at h
  · exact absurd h (by simp)
  · rename_i hdir t ht
    obtain ⟨ho, h0, h1⟩ := finishCreate_ok h
    constructor
    · rw [h0, checked_add_ok ht, ho, sumRates_append, sumRates_singleton, hc0]
      simp
    · rw [h1, ho, sumRates_append, sumRates_singleton, hc1]
      simp
  · exact absurd h (by simp)
  · rename_i hdir t ht
    obtain ⟨ho, h0, h1⟩ := finishCreate_ok h
    constructor
    · rw [h0, ho, sumRates_append, sumRates_singleton, hc0]
      simp
    · rw [h1, checked_add_ok ht, ho, sumRates_append, sumRates_singleton, hc1]
      simp

theorem removeFirstById_sumRates (oid : Nat) (d : OrderDirection) :
    ∀ (l : List Order) (o : Order) (rest : List Order),
    removeFirstById l oid = some (o, rest) →
    sumRates d l = (if o.direction = d then o.sell_rate else 0) + sumRates d rest := by
  intro l
  induction l with
  | nil =>
    intro o rest h
    exact absurd h (by simp [removeFirstById])
  | cons a l1 ih =>
    intro o rest h
    simp only [removeFirstById] at h
    split at h
    · simp only [Option.some.injEq, Prod.mk.injEq] at h
      obtain ⟨h1, h2⟩ := h
      subst h1
      subst h2
      rfl
    · split at h
      · exact absurd h (by simp)
      · rename_i f rest1 hrec
        simp only [Option.some.injEq, Prod.mk.injEq] at h
        obtain ⟨h1, h2⟩ := h
        have hr := ih _ _ hrec
        show (if a.direction = d then a.sell_rate else 0) + sumRates d l1 = _
        rw [hr, ← h1, ← h2]
        show _ = (if f.direction = d then f.sell_rate else 0) +
          ((if a.direction = d then a.sell_rate else 0) + sumRates d rest1)
        omega

theorem cancelOrder_preserves (p p1 : OrderPool) (order_id caller : Nat) (o : Order)
    (h : cancelOrder p order_id caller = (Except.ok o, p1))
    (hc : rateConsistent p) : rateConsistent p1 := by
  obtain ⟨hc0, hc1⟩ := hc
  simp only [cancelOrder] at h
  split at h
  · exact absurd h (by simp)
  rename_i o1 rest hfind
  split at h
  · exact absurd h (by simp)
  rename_i howner
  have hs0 := removeFirstById_sumRates order_id OrderDirection.SellToken0 _ _ _ hfind
  have hs1 := removeFirstById_sumRates order_id OrderDirection.SellToken1 _ _ _ hfind
  split at h <;> [skip; skip] <;> split at h
  · exact absurd h (by simp)
  · rename_i hdir xv t ht
    simp only [Prod.mk.injEq, Except.ok.injEq] at h
    obtain ⟨h1, h2⟩ := h
    subst h2
    obtain ⟨htv, htle⟩ := checked_sub_ok ht
    rw [hdir, if_pos rfl] at hs0
    rw [hdir, if_neg (by simp)] at hs1
    constructor
    · show t = sumRates OrderDirection.SellToken0 rest
      omega
    · show p.total_sell_rate_1 = sumRates OrderDirection.SellToken1 rest
      omega
  · exact absurd h (by simp)
  · rename_i hdir xv t ht
    simp only [Prod.mk.injEq, Except.ok.injEq] at h
    obtain ⟨h1, h2⟩ := h
    subst h2
    obtain ⟨htv, htle⟩ := checked_sub_ok ht
    rw [hdir, if_pos rfl] at hs1
    rw [hdir, if_neg (by simp)] at hs0
    constructor
    · show p.total_sell_rate_0 = sumRates OrderDirection.SellToken0 rest
      omega
    · show t = sumRates OrderDirection.SellToken1 rest
      omega

theorem processOrder_ok_fields (env : UpdateEnv) (o o3 : Order) (ob : Order × Bool)
    (h : processOrder env o = (Except.ok ob, o3)) :
    ob.1.direction = o.direction ∧ ob.1.sell_rate = o.sell_rate ∧
    ob.1.order_type = o.order_type ∧ ob.1.end_block = o.end_block ∧
    (ob.2 = false → ob.1.order_type ≠ OrderType.LongTerm ∨
      env.current_block < ob.1.end_block) := by
  simp only [processOrder] at h
  split at h
  · rename_i hnt
    simp only [Prod.mk.injEq, Except.ok.injEq] at h
    obtain ⟨h1, h2⟩ := h
    subst h1
    exact ⟨rfl, rfl, rfl, rfl, fun _ => Or.inl (by simpa using hnt)⟩
  · split at h
    · rename_i hexp
      simp only [Prod.mk.injEq, Except.ok.injEq] at h
      obtain ⟨h1, h2⟩ := h
      subst h1
      exact ⟨rfl, rfl, rfl, rfl, by simp⟩
    · rename_i hnexp
      split at h
      · exact absurd h (by simp)
      · rename_i amount_sold hmul
        split at h
        · exact absurd h (by simp)
        · rename_i received hrecv
          split at h
          · exact absurd h (by simp)
          · rename_i acc hacc
            simp only [Prod.mk.injEq, Except.ok.injEq] at h
            obtain ⟨h1, h2⟩ := h
            subst h1
            refine ⟨rfl, rfl, rfl, rfl, fun _ => Or.inr ?_⟩
            simpa using Nat.lt_of_not_le (by simpa using hnexp)

theorem processOrder_expired (env : UpdateEnv) (o : Order)
    (hlt : o.order_type = OrderType.LongTerm)
    (hend : o.end_block ≤ env.current_block) :
    processOrder env o = (Except.ok (o, true), o) := by
  simp only [processOrder]
  rw [if_neg (by simp [hlt]), if_pos hend]

theorem updateOrdersAux_ok_sumRates (env : UpdateEnv) (d : OrderDirection) :
    ∀ (l : List Order) (obs : List (Order × Bool)) (after : List Order),
    updateOrdersAux env l = (Except.ok obs, after) →
    sumRates d (obs.map (·.1)) = sumRates d l := by
  intro l
  induction l with
  | nil =>
    intro obs after h
    simp only [updateOrdersAux, Prod.mk.injEq, Except.ok.injEq] at h
    obtain ⟨h1, h2⟩ := h
    subst h1
    rfl
  | cons o rest ih =>
    intro obs after h
    simp only [updateOrdersAux] at h
    split at h
    · exact absurd h (by simp)
    · rename_i ob o3 hproc
      split at h
      · exact absurd h (by simp)
      · rename_i obs1 rest1 haux
        simp only [Prod.mk.injEq, Except.ok.injEq] at h
        obtain ⟨h1, h2⟩ := h
        subst h1
        obtain ⟨hd, hr, -, -, -⟩ := processOrder_ok_fields env o o3 ob hproc
        show (if ob.1.direction = d then ob.1.sell_rate else 0) + sumRates d (obs1.map (·.1)) = _
        rw [hd, hr, ih _ _ haux]
        rfl

theorem sumRates_filter_split (d : OrderDirection) (obs : List (Order × Bool)) :
    sumRates d (obs.map (·.1)) =
      sumRates d ((obs.filter (fun ob => !ob.2)).map (·.1)) +
      sumRates d ((obs.filter (fun ob => ob.2)).map (·.1)) := by
  induction obs with
  | nil => simp [sumRates]
  | cons ob rest ih =>
    obtain ⟨o, b⟩ := ob
    cases b <;> simp [List.filter_cons, sumRates, ih] <;> omega

theorem subtractRemovedRates_eq (l : List (Order × Bool)) (t0 t1 : Nat) :
    subtractRemovedRates l t0 t1 =
      (t0 - sumRates OrderDirection.SellToken0 ((l.filter (fun ob => ob.2)).map (·.1)),
       t1 - sumRates OrderDirection.SellToken1 ((l.filter (fun ob => ob.2)).map (·.1))) := by
  induction l generalizing t0 t1 with
  | nil => simp [subtractRemovedRates, sumRates]
  | cons ob rest ih =>
    obtain ⟨o, b⟩ := ob
    cases b
    · simp only [subtractRemovedRates, List.filter_cons, Bool.false_eq_true, if_false, ih]
    · rcases hdo : o.direction <;>
        simp [subtractRemovedRates, hdo, List.filter_cons, sumRates, ih, Prod.mk.injEq] <;>
        omega

theorem sumRates_reverse (d : OrderDirection) (l : List Order) :
    sumRates d l.reverse = sumRates d l := by
  induction l with
  | nil => rfl
  | cons o rest ih =>
    rw [List.reverse_cons, sumRates_append, ih, sumRates_singleton]
    show _ = (if o.direction = d then o.sell_rate else 0) + sumRates d rest
    omega

theorem sumRates_rev_filter (d : OrderDirection) (f : Order × Bool → Bool)
    (obs : List (Order × Bool)) :
    sumRates d ((obs.reverse.filter f).map (·.1)) =
      sumRates d ((obs.filter f).map (·.1)) := by
  rw [List.filter_reverse, List.map_reverse, sumRates_reverse]

theorem updateOrdersAfterExecution_ok (p : OrderPool) (blocks a0 a1 cb : Nat)
    (pupd : OrderPool)
    (h : updateOrdersAfterExecution p blocks a0 a1 cb = (Except.ok (), pupd)) :
    ∃ obs after,
      updateOrdersAux
        { blocks_elapsed := blocks
          amount_0_received := a0
          amount_1_received := a1
          current_block := cb
          total_sell_rate_0 := p.total_sell_rate_0
          total_sell_rate_1 := p.total_sell_rate_1 } p.orders = (Except.ok obs, after) ∧
      pupd.orders = (obs.filter (fun ob => !ob.2)).map (·.1) ∧
      pupd.total_sell_rate_0 = p.total_sell_rate_0 -
        sumRates OrderDirection.SellToken0 ((obs.filter (fun ob => ob.2)).map (·.1)) ∧
      pupd.total_sell_rate_1 = p.total_sell_rate_1 -
        sumRates OrderDirection.SellToken1 ((obs.filter (fun ob => ob.2)).map (·.1)) ∧
      pupd.virtual_order_state = p.virtual_order_state ∧
      pupd.next_order_id = p.next_order_id := by
  simp only [updateOrdersAfterExecution] at h
  split at h
  · exact absurd h (by simp)
  · rename_i obs after haux
    simp only [subtractRemovedRates_eq, Prod.mk.injEq, Except.ok.injEq] at h
    obtain ⟨-, h2⟩ := h
    subst h2
    exact ⟨obs, after, haux, rfl, by simp only [sumRates_rev_filter],
      by simp only [sumRates_rev_filter], rfl, rfl⟩

theorem executeVirtualOrders_ok_parts (p : OrderPool) (cb r0 r1 : Nat)
    (res : VirtualExecutionResult) (p1 : OrderPool)
    (h : executeVirtualOrders p cb r0 r1 = (Except.ok res, p1))
    (hlast : p.virtual_order_state.last_virtual_order_block < cb) :
    ∃ active0 active1 nr0 nr1 a0r a1r pupd,
      getActiveSellRates p p.virtual_order_state.last_virtual_order_block cb =
        Except.ok (active0, active1) ∧
      execute_virtual_orders_closed_form active0 active1
        (cb - p.virtual_order_state.last_virtual_order_block) r0 r1 =
        Except.ok (nr0, nr1, a0r, a1r) ∧
      updateOrdersAfterExecution p (cb - p.virtual_order_state.last_virtual_order_block)
        a0r a1r cb = (Except.ok (), pupd) ∧
      p1 = { pupd with virtual_order_state :=
        { pupd.virtual_order_state with last_virtual_order_block := cb } } ∧
      res.amount_0_received = a0r ∧ res.amount_1_received = a1r ∧
      res.blocks_executed = cb - p.virtual_order_state.last_virtual_order_block := by
  simp only [executeVirtualOrders] at h
  rw [if_neg (by omega)] at h
  split at h
  · exact absurd h (by simp)
  rename_i xsub blocks hblocks
  obtain ⟨hbv, -⟩ := checked_sub_ok hblocks
  subst hbv
  split at h
  · exact absurd h (by simp)
  rename_i xact active0 active1 hact
  split at h
  · exact absurd h (by simp)
  · exact absurd h (by simp)
  · exact absurd h (by simp)
  · exact absurd h (by simp)
  rename_i xform nr0 nr1 a0r a1r hform
  split at h
  · exact absurd h (by simp)
  rename_i xupd ures pupd hupd
  split at h
  · exact absurd h (by simp)
  rename_i xm0 a0s hmul0
  split at h
  · exact absurd h (by simp)
  rename_i xm1 a1s hmul1
  split at h
  · exact absurd h (by simp)
  rename_i xg gas hgas
  simp only [Prod.mk.injEq, Except.ok.injEq] at h
  obtain ⟨h1, h2⟩ := h
  subst h2
  refine ⟨active0, active1, nr0, nr1, a0r, a1r, pupd, hact, hform, ?_, rfl,
    by rw [← h1], by rw [← h1], by rw [← h1]⟩
  cases ures
  exact hupd

theorem executeVirtualOrders_preserves (p p1 : OrderPool) (cb r0 r1 : Nat)
    (res : VirtualExecutionResult)
    (h : executeVirtualOrders p cb r0 r1 = (Except.ok res, p1))
    (hc : rateConsistent p) : rateConsistent p1 := by
  rcases le_or_lt cb p.virtual_order_state.last_virtual_order_block with hle | hlt
  · rw [executeVirtualOrders_stale p cb r0 r1 hle] at h
    simp only [Prod.mk.injEq, Except.ok.injEq] at h
    obtain ⟨-, h2⟩ := h
    rw [← h2]
    exact hc
  · obtain ⟨a0, a1, nr0, nr1, a0r, a1r, pupd, hact, hform, hupd, hp1, -, -, -⟩ :=
      executeVirtualOrders_ok_parts p cb r0 r1 res p1 h hlt
    obtain ⟨obs, after, haux, horders, ht0, ht1, -, -⟩ :=
      updateOrdersAfterExecution_ok p _ a0r a1r cb pupd hupd
    obtain ⟨hc0, hc1⟩ := hc
    have hsum0 := updateOrdersAux_ok_sumRates _ OrderDirection.SellToken0 _ _ _ haux
    have hsum1 := updateOrdersAux_ok_sumRates _ OrderDirection.SellToken1 _ _ _ haux
    have hsplit0 := sumRates_filter_split OrderDirection.SellToken0 obs
    have hsplit1 := sumRates_filter_split OrderDirection.SellToken1 obs
    subst hp1
    constructor
    · show pupd.total_sell_rate_0 = sumRates OrderDirection.SellToken0 pupd.orders
      rw [ht0, hc0, horders]
      omega
    · show pupd.total_sell_rate_1 = sumRates OrderDirection.SellToken1 pupd.orders
      rw [ht1, hc1, horders]
      omega

/-- C4 (amended): in every pool state reachable from the empty pool by
successful `create_long_term_order`, `cancel_order` and
`execute_virtual_orders` calls, each per-direction aggregate sell rate equals
the sum of the stored sell rates in that direction. -/
theorem rate_bookkeeping_invariant (p : OrderPool) (h : Reachable p) :
    rateConsistent p := by
  induction h with
  | init => exact ⟨rfl, rfl⟩
  | create p p1 owner direction sell_amount duration_blocks current_block i hre heq ih =>
    exact createLongTermOrder_preserves p p1 owner direction sell_amount duration_blocks
      current_block i heq ih
  | cancel p p1 order_id caller o hre heq ih =>
    exact cancelOrder_preserves p p1 order_id caller o heq ih
  | execute p p1 current_block r0 r1 res hre heq ih =>
    exact executeVirtualOrders_preserves p p1 current_block r0 r1 res heq ih

/-- Witness for C4 after one successful creation. -/
theorem rate_bookkeeping_invariant_witness :
    (createLongTermOrder OrderPool.init 5 OrderDirection.SellToken0 1000 10 0).2.total_sell_rate_0 =
      sumRates OrderDirection.SellToken0
        (createLongTermOrder OrderPool.init 5 OrderDirection.SellToken0 1000 10 0).2.orders ∧
    (createLongTermOrder OrderPool.init 5 OrderDirection.SellToken0 1000 10 0).2.total_sell_rate_1 =
      sumRates OrderDirection.SellToken1
        (createLongTermOrder OrderPool.init 5 OrderDirection.SellToken0 1000 10 0).2.orders :=
  rate_bookkeeping_invariant _
    (Reachable.create OrderPool.init _ 5 OrderDirection.SellToken0 1000 10 0 1
      Reachable.init rfl)

/-- C7 (counterexample): at trade size 100000 against reserves
1000000/1000000 with the default precision 18, the code returns
`9090 * 10 ^ 15`, while the claimed basis-points formula
`(expected - actual) * 10000 / expected` gives `909`. -/
theorem price_impact_counterexample :
    calculate_price_impact 100000 1000000 1000000 18 = Except.ok 9090000000000000000 ∧
    (100000 * 1000000 / 1000000 -
        (1000000 - 1000000 * 1000000 / (1000000 + 100000))) * 10000 /
      (100000 * 1000000 / 1000000) = 909 ∧
    (9090000000000000000 : Nat) ≠ 909 :=
  ⟨rfl, by decide, by decide⟩

theorem usub_eq_sub (a b : Nat) (hb : b ≤ a) (ha : a < W) : usub a b = a - b := by
  have hW : 0 < W := by
    unfold W
    norm_num
  unfold usub
  rw [show a + W - b = W + (a - b) by omega, Nat.add_mod_left]
  exact Nat.mod_eq_of_lt (by omega)

/-- C7 (amended): away from `U256` wrapping, `calculate_price_impact` returns
zero when the constant-product output reaches the linear estimate, and
otherwise `(expected - actual) * 10 ^ precision * 100 / expected`, a
precision-scaled percentage rather than basis points; the result is a
natural number, hence never negative. -/
theorem price_impact_formula (trade_size reserve_in reserve_out precision : Nat)
    (hin : 0 < reserve_in) (hout : 0 < reserve_out) (hprec : precision ≤ 38)
    (hk : reserve_in * reserve_out < W)
    (hri : reserve_in + trade_size < W)
    (hexp : trade_size * reserve_out < W)
    (himp : (trade_size * reserve_out / reserve_in -
        (reserve_out - reserve_in * reserve_out / (reserve_in + trade_size))) *
        10 ^ precision * 100 < W) :
    calculate_price_impact trade_size reserve_in reserve_out precision =
      Except.ok
        (if trade_size * reserve_out / reserve_in ≤
            reserve_out - reserve_in * reserve_out / (reserve_in + trade_size) then 0
         else
           (trade_size * reserve_out / reserve_in -
             (reserve_out - reserve_in * reserve_out / (reserve_in + trade_size))) *
             10 ^ precision * 100 /
             (trade_size * reserve_out / reserve_in)) := by
  have hone : pow10u128 precision = 10 ^ precision := by
    unfold pow10u128
    apply Nat.mod_eq_of_lt
    calc 10 ^ precision ≤ 10 ^ 38 := Nat.pow_le_pow_right (by norm_num) hprec
      _ < 2 ^ 128 := by norm_num
  have hnro_le : reserve_in * reserve_out / (reserve_in + trade_size) ≤ reserve_out := by
    calc reserve_in * reserve_out / (reserve_in + trade_size)
        ≤ reserve_in * reserve_out / reserve_in :=
          Nat.div_le_div_left (Nat.le_add_right _ _) hin
      _ = reserve_out := Nat.mul_div_cancel_left reserve_out hin
  have hroutW : reserve_out < W :=
    lt_of_le_of_lt (Nat.le_mul_of_pos_left reserve_out hin) hk
  simp only [calculate_price_impact, umul, uadd]
  rw [if_neg (by omega), hone, Nat.mod_eq_of_lt hk, Nat.mod_eq_of_lt hri,
    Nat.mod_eq_of_lt hexp, if_neg (by omega : ¬ reserve_in + trade_size = 0),
    usub_eq_sub _ _ hnro_le hroutW]
  by_cases hcond : trade_size * reserve_out / reserve_in ≤
      reserve_out - reserve_in * reserve_out / (reserve_in + trade_size)
  · rw [if_pos hcond, if_pos hcond]
  · rw [if_neg hcond, if_neg hcond]
    have hd1 : (trade_size * reserve_out / reserve_in -
        (reserve_out - reserve_in * reserve_out / (reserve_in + trade_size))) *
        10 ^ precision < W :=
      lt_of_le_of_lt (Nat.le_mul_of_pos_right _ (by norm_num)) himp
    rw [Nat.mod_eq_of_lt hd1, Nat.mod_eq_of_lt himp]

/-- Witness for C7 at the counterexample input. -/
theorem price_impact_formula_witness :
    calculate_price_impact 100000 1000000 1000000 18 =
      Except.ok 9090000000000000000 := by
  have h := price_impact_formula 100000 1000000 1000000 18 (by decide) (by decide)
    (by decide) (by decide) (by decide) (by decide) (by decide)
  rw [h]
  rfl

theorem updateOrdersAux_ok_kept (env : UpdateEnv) :
    ∀ (l : List Order) (obs : List (Order × Bool)) (after : List Order),
    updateOrdersAux env l = (Except.ok obs, after) →
    ∀ x ∈ (obs.filter (fun ob => !ob.2)).map (·.1),
      x.order_type ≠ OrderType.LongTerm ∨ env.current_block < x.end_block := by
  intro l
  induction l with
  | nil =>
    intro obs after h x hx
    simp only [updateOrdersAux, Prod.mk.injEq, Except.ok.injEq] at h
    obtain ⟨h1, -⟩ := h
    subst h1
    simp at hx
  | cons o rest ih =>
    intro obs after h x hx
    simp only [updateOrdersAux] at h
    split at h
    · exact absurd h (by simp)
    rename_i xp ob owild hproc
    split at h
    · exact absurd h (by simp)
    rename_i xa obs1 rest1 haux
    simp only [Prod.mk.injEq, Except.ok.injEq] at h
    obtain ⟨h1, -⟩ := h
    subst h1
    obtain ⟨-, -, -, -, hkeep⟩ := processOrder_ok_fields env o owild ob hproc
    cases hb : ob.2
    · simp only [List.filter_cons, hb, Bool.not_false, if_true, List.map_cons,
        List.mem_cons] at hx
      rcases hx with hx | hx
      · subst hx
        exact hkeep hb
      · exact ih _ _ haux x hx
    · simp only [List.filter_cons, hb, Bool.not_true, if_false] at hx
      exact ih _ _ haux x hx

/-- C10: a successful `execute_virtual_orders` call removes every stored
long-term order whose `end_block` is at most `currentBlock` from the pool,
and the update pass leaves such an order completely untouched before
removal (flagging it without changing `remaining_amount` or
`accumulated_out`), so it receives no share of the proceeds of its final
window even though its rate was aggregated for it. -/
theorem expired_orders_removed_untouched (p : OrderPool) (current_block r0 r1 : Nat)
    (res : VirtualExecutionResult) (p1 : OrderPool) (o : Order)
    (hexec : executeVirtualOrders p current_block r0 r1 = (Except.ok res, p1))
    (hlast : p.virtual_order_state.last_virtual_order_block < current_block)
    (ho : o ∈ p.orders) (hlt : o.order_type = OrderType.LongTerm)
    (hend : o.end_block ≤ current_block) :
    o ∉ p1.orders ∧
    ∀ env : UpdateEnv, env.current_block = current_block →
      processOrder env o = (Except.ok (o, true), o) := by
  obtain ⟨a0, a1, nr0, nr1, a0r, a1r, pupd, hact, hform, hupd, hp1, -, -, -⟩ :=
    executeVirtualOrders_ok_parts p current_block r0 r1 res p1 hexec hlast
  obtain ⟨obs, after, haux, horders, -, -, -, -⟩ :=
    updateOrdersAfterExecution_ok p _ a0r a1r current_block pupd hupd
  constructor
  · intro hmem
    subst hp1
    have hmem2 : o ∈ pupd.orders := hmem
    rw [horders] at hmem2
    rcases updateOrdersAux_ok_kept _ _ _ _ haux o hmem2 with hne | hlt2
    · exact hne hlt
    · have hlt3 : current_block < o.end_block := hlt2
      omega
  · intro env henv
    exact processOrder_expired env o hlt (by omega)

/-- Witness for C10 on the concrete expired order. -/
theorem expired_orders_removed_untouched_witness :
    oExpired ∉ pExpiredAfter.orders ∧
    processOrder envWindow oExpired = (Except.ok (oExpired, true), oExpired) := by
  have h := expired_orders_removed_untouched pExpired 100 1000000 1000000 resWindow
    pExpiredAfter oExpired rfl (by decide) (by decide) (by decide) (by decide)
  exact ⟨h.1, h.2 envWindow rfl⟩

/-- C3 (counterexample): on a pool holding a single token-0 order that is
expired at the current block but overlapped the elapsed window, the pool
receives 47620 token-1 units while the summed increase of `accumulated_out`
over token-0 orders is zero: settlement is off by far more than the claimed
tolerance of one unit per contributing order. -/
theorem settlement_conservation_counterexample :
    executeVirtualOrders pExpired 100 1000000 1000000 =
      (Except.ok resWindow, pExpiredAfter) ∧
    countDir OrderDirection.SellToken0 pExpired.orders = 1 ∧
    sumAccum OrderDirection.SellToken0 pExpired.orders = 0 ∧
    sumAccum OrderDirection.SellToken0 pExpiredAfter.orders = 0 ∧
    resWindow.amount_1_received = 47620 ∧
    ¬ resWindow.amount_1_received ≤ 0 - 0 + 1 :=
  ⟨rfl, rfl, rfl, rfl, rfl, by decide⟩

theorem receivedAmount_ok (env : UpdateEnv) (o : Order) (v : Nat)
    (h : receivedAmount env o = Except.ok v) : v = orderShare env o := by
  unfold receivedAmount at h
  unfold orderShare
  cases hdo : o.direction <;> rw [hdo] at h <;> dsimp only at h ⊢
  · split at h
    · rename_i hpos
      rw [if_pos hpos]
      split at h
      · exact absurd h (by simp)
      rename_i m hm
      split at h
      · exact absurd h (by simp)
      rename_i v2 hv
      obtain ⟨hv2, -⟩ := checked_div_ok hv
      simp only [Except.ok.injEq] at h
      rw [← h, hv2, checked_mul_ok hm]
    · rename_i hpos
      rw [if_neg hpos]
      simp only [Except.ok.injEq] at h
      omega
  · split at h
    · rename_i hpos
      rw [if_pos hpos]
      split at h
      · exact absurd h (by simp)
      rename_i m hm
      split at h
      · exact absurd h (by simp)
      rename_i v2 hv
      obtain ⟨hv2, -⟩ := checked_div_ok hv
      simp only [Except.ok.injEq] at h
      rw [← h, hv2, checked_mul_ok hm]
    · rename_i hpos
      rw [if_neg hpos]
      simp only [Except.ok.injEq] at h
      omega

theorem processOrder_active (env : UpdateEnv) (o : Order) (ob : Order × Bool)
    (o3 : Order) (h : processOrder env o = (Except.ok ob, o3))
    (hlt : o.order_type = OrderType.LongTerm)
    (hend : env.current_block < o.end_block)
    (hrem : o.sell_rate * env.blocks_elapsed < o.remaining_amount) :
    ob = (updF env o, false) := by
  simp only [processOrder] at h
  rw [if_neg (by simp [hlt]), if_neg (by omega)] at h
  split at h
  · exact absurd h (by simp)
  rename_i amount_sold hmul
  have hms : amount_sold = o.sell_rate * env.blocks_elapsed := checked_mul_ok hmul
  split at h
  · exact absurd h (by simp)
  rename_i received hrecv
  split at h
  · exact absurd h (by simp)
  rename_i acc hacc
  have hrv : received = orderShare env o := receivedAmount_ok env o received hrecv
  have hav : acc = o.accumulated_out + received := checked_add_ok hacc
  simp only [Prod.mk.injEq, Except.ok.injEq] at h
  obtain ⟨h1, -⟩ := h
  rw [← h1]
  have hmin : min amount_sold o.remaining_amount = amount_sold := by omega
  have hrem2 : o.remaining_amount - amount_sold ≠ 0 := by omega
  simp only [hmin, updF, hrv, hav]
  refine Prod.mk.injEq .. ▸ ⟨?_, ?_⟩
  · rw [hms]
  · simp only [hmin, hms, decide_eq_false_iff_not]
    omega

theorem updateOrdersAux_all_active (env : UpdateEnv) :
    ∀ (l : List Order) (obs : List (Order × Bool)) (after : List Order),
    (∀ o ∈ l, o.order_type = OrderType.LongTerm ∧
      env.current_block < o.end_block ∧
      o.sell_rate * env.blocks_elapsed < o.remaining_amount) →
    updateOrdersAux env l = (Except.ok obs, after) →
    obs = l.map (fun o => (updF env o, false)) := by
  intro l
  induction l with
  | nil =>
    intro obs after hall h
    simp only [updateOrdersAux, Prod.mk.injEq, Except.ok.injEq] at h
    obtain ⟨h1, -⟩ := h
    rw [← h1]
    rfl
  | cons o rest ih =>
    intro obs after hall h
    simp only [updateOrdersAux] at h
    split at h
    · exact absurd h (by simp)
    rename_i xp ob owild hproc
    split at h
    · exact absurd h (by simp)
    rename_i xa obs1 rest1 haux
    simp only [Prod.mk.injEq, Except.ok.injEq] at h
    obtain ⟨h1, -⟩ := h
    obtain ⟨hh1, hh2, hh3⟩ := hall o (by simp)
    have hob := processOrder_active env o ob owild hproc hh1 hh2 hh3
    rw [← h1, hob, ih _ _ (fun o ho => hall o (by simp [ho])) haux]
    rfl

theorem kept_of_all_false (f : Order → Order) (l : List Order) :
    ((l.map (fun o => (f o, false))).filter (fun ob => !ob.2)).map (·.1) = l.map f := by
  induction l with
  | nil => rfl
  | cons o rest ih => simp [List.filter_cons, ih]

theorem sumAccum_map_updF (env : UpdateEnv) (d : OrderDirection) (l : List Order) :
    sumAccum d (l.map (updF env)) = sumAccum d l + sumShares env d l := by
  induction l with
  | nil => rfl
  | cons o rest ih =>
    show (if (updF env o).direction = d then (updF env o).accumulated_out else 0) +
      sumAccum d (rest.map (updF env)) = _
    rw [ih]
    show _ = (if o.direction = d then o.accumulated_out else 0) + sumAccum d rest +
      ((if o.direction = d then orderShare env o else 0) + sumShares env d rest)
    have hdir : (updF env o).direction = o.direction := rfl
    have hacc : (updF env o).accumulated_out = o.accumulated_out + orderShare env o := rfl
    rw [hdir, hacc]
    by_cases hd : o.direction = d
    · rw [if_pos hd, if_pos hd, if_pos hd]
      omega
    · rw [if_neg hd, if_neg hd, if_neg hd]
      omega

theorem sumShares_bounds_core (env : UpdateEnv) (d : OrderDirection) (a T : Nat)
    (hT : 0 < T)
    (hshare : ∀ o : Order, o.direction = d → orderShare env o = a * o.sell_rate / T) :
    ∀ l : List Order,
      T * sumShares env d l ≤ a * sumRates d l ∧
      a * sumRates d l ≤ T * sumShares env d l + countDir d l * (T - 1) := by
  intro l
  induction l with
  | nil => simp [sumShares, sumRates, countDir]
  | cons o rest ih =>
    obtain ⟨ihA, ihB⟩ := ih
    show T * ((if o.direction = d then orderShare env o else 0) + sumShares env d rest) ≤
        a * ((if o.direction = d then o.sell_rate else 0) + sumRates d rest) ∧
      a * ((if o.direction = d then o.sell_rate else 0) + sumRates d rest) ≤
        T * ((if o.direction = d then orderShare env o else 0) + sumShares env d rest) +
          ((if o.direction = d then 1 else 0) + countDir d rest) * (T - 1)
    by_cases hd : o.direction = d
    · simp only [if_pos hd]
      have hsh := hshare o hd
      have hdm := Nat.div_add_mod (a * o.sell_rate) T
      have hmlt : (a * o.sell_rate) % T < T := Nat.mod_lt _ hT
      have hup : T * orderShare env o ≤ a * o.sell_rate := by
        rw [hsh, Nat.mul_comm]
        exact Nat.div_mul_le_self _ _
      have hlo : a * o.sell_rate ≤ T * orderShare env o + (T - 1) := by
        rw [hsh]
        omega
      have hcnt : (1 + countDir d rest) * (T - 1) =
          (T - 1) + countDir d rest * (T - 1) := by
        rw [Nat.add_mul, Nat.one_mul]
      rw [Nat.mul_add, Nat.mul_add, hcnt]
      omega
    · simp only [if_neg hd, Nat.zero_add]
      exact ⟨ihA, ihB⟩

theorem countDir_pos_exists (d : OrderDirection) (l : List Order)
    (h : 0 < countDir d l) : ∃ o ∈ l, o.direction = d := by
  induction l with
  | nil => simp [countDir] at h
  | cons o rest ih =>
    by_cases hd : o.direction = d
    · exact ⟨o, by simp, hd⟩
    · have h2 : 0 < countDir d rest := by
        have h3 : countDir d (o :: rest) = 0 + countDir d rest := by
          show (if o.direction = d then 1 else 0) + _ = _
          rw [if_neg hd]
        omega
      obtain ⟨o2, ho2, hd2⟩ := ih h2
      exact ⟨o2, by simp [ho2], hd2⟩

theorem rate_le_sumRates (d : OrderDirection) (l : List Order) (o : Order)
    (ho : o ∈ l) (hd : o.direction = d) : o.sell_rate ≤ sumRates d l := by
  induction l with
  | nil => simp at ho
  | cons a rest ih =>
    rcases List.mem_cons.mp ho with h1 | h1
    · subst h1
      show _ ≤ (if o.direction = d then o.sell_rate else 0) + sumRates d rest
      rw [if_pos hd]
      omega
    · have h2 := ih h1
      show _ ≤ (if a.direction = d then a.sell_rate else 0) + sumRates d rest
      omega

theorem sumShares_S0_bounds (env : UpdateEnv) (l : List Order)
    (hpos : ∀ o ∈ l, 0 < o.sell_rate)
    (hT : env.total_sell_rate_0 = sumRates OrderDirection.SellToken0 l)
    (hn : 0 < countDir OrderDirection.SellToken0 l) :
    sumShares env OrderDirection.SellToken0 l ≤ env.amount_1_received ∧
    env.amount_1_received ≤ sumShares env OrderDirection.SellToken0 l +
      countDir OrderDirection.SellToken0 l := by
  obtain ⟨o, ho, hdo⟩ := countDir_pos_exists _ _ hn
  have hTpos : 0 < env.total_sell_rate_0 := by
    have h1 := rate_le_sumRates _ l o ho hdo
    have h2 := hpos o ho
    omega
  have hshare : ∀ o2 : Order, o2.direction = OrderDirection.SellToken0 →
      orderShare env o2 =
        env.amount_1_received * o2.sell_rate / env.total_sell_rate_0 := by
    intro o2 hd2
    unfold orderShare
    rw [hd2]
    dsimp only
    rw [if_pos hTpos]
  obtain ⟨hA, hB⟩ := sumShares_bounds_core env OrderDirection.SellToken0
    env.amount_1_received env.total_sell_rate_0 hTpos hshare l
  rw [← hT] at hA hB
  constructor
  · refine Nat.le_of_mul_le_mul_left ?_ hTpos
    calc env.total_sell_rate_0 * sumShares env OrderDirection.SellToken0 l
        ≤ env.amount_1_received * env.total_sell_rate_0 := hA
      _ = env.total_sell_rate_0 * env.amount_1_received := Nat.mul_comm _ _
  · have hnT : countDir OrderDirection.SellToken0 l * (env.total_sell_rate_0 - 1) +
        countDir OrderDirection.SellToken0 l =
        countDir OrderDirection.SellToken0 l * env.total_sell_rate_0 := by
      obtain ⟨t, ht⟩ : ∃ t, env.total_sell_rate_0 = t + 1 :=
        ⟨env.total_sell_rate_0 - 1, by omega⟩
      rw [ht, Nat.mul_succ, Nat.add_sub_cancel]
    have h1 : env.amount_1_received * env.total_sell_rate_0 <
        (sumShares env OrderDirection.SellToken0 l +
          countDir OrderDirection.SellToken0 l) * env.total_sell_rate_0 := by
      calc env.amount_1_received * env.total_sell_rate_0
          ≤ env.total_sell_rate_0 * sumShares env OrderDirection.SellToken0 l +
            countDir OrderDirection.SellToken0 l * (env.total_sell_rate_0 - 1) := hB
        _ < env.total_sell_rate_0 * sumShares env OrderDirection.SellToken0 l +
            countDir OrderDirection.SellToken0 l * env.total_sell_rate_0 := by omega
        _ = (sumShares env OrderDirection.SellToken0 l +
            countDir OrderDirection.SellToken0 l) * env.total_sell_rate_0 := by
            rw [Nat.add_mul, Nat.mul_comm]
    have h2 := Nat.lt_of_mul_lt_mul_right h1
    omega

theorem sumShares_S1_bounds (env : UpdateEnv) (l : List Order)
    (hpos : ∀ o ∈ l, 0 < o.sell_rate)
    (hT : env.total_sell_rate_1 = sumRates OrderDirection.SellToken1 l)
    (hn : 0 < countDir OrderDirection.SellToken1 l) :
    sumShares env OrderDirection.SellToken1 l ≤ env.amount_0_received ∧
    env.amount_0_received ≤ sumShares env OrderDirection.SellToken1 l +
      countDir OrderDirection.SellToken1 l := by
  obtain ⟨o, ho, hdo⟩ := countDir_pos_exists _ _ hn
  have hTpos : 0 < env.total_sell_rate_1 := by
    have h1 := rate_le_sumRates _ l o ho hdo
    have h2 := hpos o ho
    omega
  have hshare : ∀ o2 : Order, o2.direction = OrderDirection.SellToken1 →
      orderShare env o2 =
        env.amount_0_received * o2.sell_rate / env.total_sell_rate_1 := by
    intro o2 hd2
    unfold orderShare
    rw [hd2]
    dsimp only
    rw [if_pos hTpos]
  obtain ⟨hA, hB⟩ := sumShares_bounds_core env OrderDirection.SellToken1
    env.amount_0_received env.total_sell_rate_1 hTpos hshare l
  rw [← hT] at hA hB
  constructor
  · refine Nat.le_of_mul_le_mul_left ?_ hTpos
    calc env.total_sell_rate_1 * sumShares env OrderDirection.SellToken1 l
        ≤ env.amount_0_received * env.total_sell_rate_1 := hA
      _ = env.total_sell_rate_1 * env.amount_0_received := Nat.mul_comm _ _
  · have hnT : countDir OrderDirection.SellToken1 l * (env.total_sell_rate_1 - 1) +
        countDir OrderDirection.SellToken1 l =
        countDir OrderDirection.SellToken1 l * env.total_sell_rate_1 := by
      obtain ⟨t, ht⟩ : ∃ t, env.total_sell_rate_1 = t + 1 :=
        ⟨env.total_sell_rate_1 - 1, by omega⟩
      rw [ht, Nat.mul_succ, Nat.add_sub_cancel]
    have h1 : env.amount_0_received * env.total_sell_rate_1 <
        (sumShares env OrderDirection.SellToken1 l +
          countDir OrderDirection.SellToken1 l) * env.total_sell_rate_1 := by
      calc env.amount_0_received * env.total_sell_rate_1
          ≤ env.total_sell_rate_1 * sumShares env OrderDirection.SellToken1 l +
            countDir OrderDirection.SellToken1 l * (env.total_sell_rate_1 - 1) := hB
        _ < env.total_sell_rate_1 * sumShares env OrderDirection.SellToken1 l +
            countDir OrderDirection.SellToken1 l * env.total_sell_rate_1 := by omega
        _ = (sumShares env OrderDirection.SellToken1 l +
            countDir OrderDirection.SellToken1 l) * env.total_sell_rate_1 := by
            rw [Nat.add_mul, Nat.mul_comm]
    have h2 := Nat.lt_of_mul_lt_mul_right h1
    omega

/-- C3 (amended): for a successful catch-up on a consistent pool all of whose
stored orders are long-term, have positive rate, span the whole elapsed
window and neither expire nor complete in it, the summed increase of
`accumulated_out` per direction equals the received opposite-token amount up
to a shortfall of at most the number of contributing orders of that
direction (stated for each direction that has at least one order). -/
theorem settlement_conservation (p : OrderPool) (cb r0 r1 : Nat)
    (res : VirtualExecutionResult) (p1 : OrderPool)
    (hexec : executeVirtualOrders p cb r0 r1 = (Except.ok res, p1))
    (hlast : p.virtual_order_state.last_virtual_order_block < cb)
    (hcons : rateConsistent p)
    (hactive : ∀ o ∈ p.orders, o.order_type = OrderType.LongTerm ∧ 0 < o.sell_rate ∧
      o.start_block < cb ∧ cb < o.end_block ∧
      o.sell_rate * (cb - p.virtual_order_state.last_virtual_order_block) <
        o.remaining_amount) :
    (0 < countDir OrderDirection.SellToken0 p.orders →
      sumAccum OrderDirection.SellToken0 p1.orders ≤
        sumAccum OrderDirection.SellToken0 p.orders + res.amount_1_received ∧
      sumAccum OrderDirection.SellToken0 p.orders + res.amount_1_received ≤
        sumAccum OrderDirection.SellToken0 p1.orders +
          countDir OrderDirection.SellToken0 p.orders) ∧
    (0 < countDir OrderDirection.SellToken1 p.orders →
      sumAccum OrderDirection.SellToken1 p1.orders ≤
        sumAccum OrderDirection.SellToken1 p.orders + res.amount_0_received ∧
      sumAccum OrderDirection.SellToken1 p.orders + res.amount_0_received ≤
        sumAccum OrderDirection.SellToken1 p1.orders +
          countDir OrderDirection.SellToken1 p.orders) := by
  obtain ⟨a0, a1, nr0, nr1, a0r, a1r, pupd, hact, hform, hupd, hp1, hres0, hres1, -⟩ :=
    executeVirtualOrders_ok_parts p cb r0 r1 res p1 hexec hlast
  obtain ⟨obs, after, haux, horders, -, -, -, -⟩ :=
    updateOrdersAfterExecution_ok p _ a0r a1r cb pupd hupd
  have hall : ∀ o ∈ p.orders, o.order_type = OrderType.LongTerm ∧
      cb < o.end_block ∧
      o.sell_rate * (cb - p.virtual_order_state.last_virtual_order_block) <
        o.remaining_amount := by
    intro o ho
    obtain ⟨h1, -, -, h4, h5⟩ := hactive o ho
    exact ⟨h1, h4, h5⟩
  have hobs := updateOrdersAux_all_active _ p.orders obs after hall haux
  subst hobs
  rw [kept_of_all_false] at horders
  subst hp1
  rw [hres0, hres1]
  have hposr : ∀ o ∈ p.orders, 0 < o.sell_rate := fun o ho => (hactive o ho).2.1
  constructor
  · intro hn0
    have hb := sumShares_S0_bounds
      { blocks_elapsed := cb - p.virtual_order_state.last_virtual_order_block
        amount_0_received := a0r
        amount_1_received := a1r
        current_block := cb
        total_sell_rate_0 := p.total_sell_rate_0
        total_sell_rate_1 := p.total_sell_rate_1 } p.orders hposr hcons.1 hn0
    dsimp only at hb
    have hsum := sumAccum_map_updF
      { blocks_elapsed := cb - p.virtual_order_state.last_virtual_order_block
        amount_0_received := a0r
        amount_1_received := a1r
        current_block := cb
        total_sell_rate_0 := p.total_sell_rate_0
        total_sell_rate_1 := p.total_sell_rate_1 } OrderDirection.SellToken0 p.orders
    have hacc : sumAccum OrderDirection.SellToken0 pupd.orders =
        sumAccum OrderDirection.SellToken0 p.orders +
          sumShares
            { blocks_elapsed := cb - p.virtual_order_state.last_virtual_order_block
              amount_0_received := a0r
              amount_1_received := a1r
              current_block := cb
              total_sell_rate_0 := p.total_sell_rate_0
              total_sell_rate_1 := p.total_sell_rate_1 } OrderDirection.SellToken0
            p.orders := by
      rw [horders]
      exact hsum
    constructor
    · show sumAccum OrderDirection.SellToken0 pupd.orders ≤ _
      omega
    · show _ ≤ sumAccum OrderDirection.SellToken0 pupd.orders + _
      omega
  · intro hn1
    have hb := sumShares_S1_bounds
      { blocks_elapsed := cb - p.virtual_order_state.last_virtual_order_block
        amount_0_received := a0r
        amount_1_received := a1r
        current_block := cb
        total_sell_rate_0 := p.total_sell_rate_0
        total_sell_rate_1 := p.total_sell_rate_1 } p.orders hposr hcons.2 hn1
    dsimp only at hb
    have hsum := sumAccum_map_updF
      { blocks_elapsed := cb - p.virtual_order_state.last_virtual_order_block
        amount_0_received := a0r
        amount_1_received := a1r
        current_block := cb
        total_sell_rate_0 := p.total_sell_rate_0
        total_sell_rate_1 := p.total_sell_rate_1 } OrderDirection.SellToken1 p.orders
    have hacc : sumAccum OrderDirection.SellToken1 pupd.orders =
        sumAccum OrderDirection.SellToken1 p.orders +
          sumShares
            { blocks_elapsed := cb - p.virtual_order_state.last_virtual_order_block
              amount_0_received := a0r
              amount_1_received := a1r
              current_block := cb
              total_sell_rate_0 := p.total_sell_rate_0
              total_sell_rate_1 := p.total_sell_rate_1 } OrderDirection.SellToken1
            p.orders := by
      rw [horders]
      exact hsum
    constructor
    · show sumAccum OrderDirection.SellToken1 pupd.orders ≤ _
      omega
    · show _ ≤ sumAccum OrderDirection.SellToken1 pupd.orders + _
      omega

/-- Witness for C3 on the concrete single-order pool `pRunning`. -/
theorem settlement_conservation_witness :
    (0 < countDir OrderDirection.SellToken0 pRunning.orders →
      sumAccum OrderDirection.SellToken0 pRunningAfter.orders ≤
        sumAccum OrderDirection.SellToken0 pRunning.orders +
          resWindow.amount_1_received ∧
      sumAccum OrderDirection.SellToken0 pRunning.orders +
          resWindow.amount_1_received ≤
        sumAccum OrderDirection.SellToken0 pRunningAfter.orders +
          countDir OrderDirection.SellToken0 pRunning.orders) ∧
    (0 < countDir OrderDirection.SellToken1 pRunning.orders →
      sumAccum OrderDirection.SellToken1 pRunningAfter.orders ≤
        sumAccum OrderDirection.SellToken1 pRunning.orders +
          resWindow.amount_0_received ∧
      sumAccum OrderDirection.SellToken1 pRunning.orders +
          resWindow.amount_0_received ≤
        sumAccum OrderDirection.SellToken1 pRunningAfter.orders +
          countDir OrderDirection.SellToken1 pRunning.orders) := by
  refine settlement_conservation pRunning 100 1000000 1000000 resWindow pRunningAfter
    rfl (by decide) ⟨rfl, rfl⟩ ?_
  intro o ho
  rw [show pRunning.orders = [oRunning] from rfl, List.mem_singleton] at ho
  subst ho
  exact ⟨rfl, by decide, by decide, by decide, by decide⟩

end Twamm
